import Mathlib

/-!
Verification of the simple Fontra WASM core
(src-js/webapp/fontra_wasm_core_simple.py).

The module is JSON marshalling glue over an outline data model:
Point / Contour / Path classes with a dict codec (to_dict / from_dict),
geometry operations (get_bounds, translate, scale) and a processor with
string-in / dict-out entry points (path_bounds, path_translate, path_scale,
path_validate, path_info) that wrap everything in a success / error envelope.

Embedding choices:
* Python JSON values are modelled by the inductive `Json` (numbers as exact
  rationals: the claims are about the algebra of the operations, not IEEE
  rounding).
* Python dicts are association lists in insertion order; `lookupKey` is
  `dict.get`.
* Two views of decode are embedded. The operation-level development uses a
  typed view of the outline (coordinates as rationals, type as string, smooth
  as boolean): `from_dict` checks the shape of a present field at decode time,
  where the source stores it untyped and lets any type error surface in a
  later operation (the envelope shapes those claims talk about are unchanged).
  The decode-failure analysis instead uses `pyPoint_from_dict`,
  `pyContour_from_dict` and `pyPath_from_dict`, which execute dict.get exactly
  as Python does: present values stored untyped, and sequence fields iterated
  like Python iterables (a list yields its elements, a string its characters,
  a dict its keys; null, booleans and numbers raise TypeError).
* `json.loads` is external library code, so the entry points take the already
  parsed input, `Except String Json`: `Except.error e` is a parse failure whose
  exception text is `e`.
-/

namespace FontraSimple

attribute [local semireducible] Rat.add Rat.sub Rat.mul Rat.inv Rat.ofScientific

/-- A parsed JSON value, as produced by json.loads. -/
inductive Json where
  | null
  | bool (b : Bool)
  | num (q : Rat)
  | str (s : String)
  | arr (elems : List Json)
  | obj (members : List (String × Json))

mutual

/-- Structural equality test on JSON values. -/
def Json.beq : Json → Json → Bool
  | .null, .null => true
  | .bool a, .bool b => a == b
  | .num a, .num b => a == b
  | .str a, .str b => a == b
  | .arr xs, .arr ys => Json.beqL xs ys
  | .obj xs, .obj ys => Json.beqM xs ys
  | _, _ => false

/-- Structural equality test on JSON arrays. -/
def Json.beqL : List Json → List Json → Bool
  | [], [] => true
  | x :: xs, y :: ys => Json.beq x y && Json.beqL xs ys
  | _, _ => false

/-- Structural equality test on JSON object member lists. -/
def Json.beqM : List (String × Json) → List (String × Json) → Bool
  | [], [] => true
  | (k1, v1) :: xs, (k2, v2) :: ys => k1 == k2 && Json.beq v1 v2 && Json.beqM xs ys
  | _, _ => false

end

mutual

theorem Json.eq_of_beq : ∀ {a b : Json}, Json.beq a b = true → a = b
  | .null, .null, _ => rfl
  | .bool a, .bool b, h => by simpa [Json.beq] using h
  | .num a, .num b, h => by
      simp only [Json.beq, beq_iff_eq] at h; exact h ▸ rfl
  | .str a, .str b, h => by simpa [Json.beq] using h
  | .arr xs, .arr ys, h => by
      have := @Json.eqL_of_beq xs ys (by simpa [Json.beq] using h)
      exact this ▸ rfl
  | .obj xs, .obj ys, h => by
      have := @Json.eqM_of_beq xs ys (by simpa [Json.beq] using h)
      exact this ▸ rfl

theorem Json.eqL_of_beq : ∀ {xs ys : List Json}, Json.beqL xs ys = true → xs = ys
  | [], [], _ => rfl
  | x :: xs, y :: ys, h => by
      simp only [Json.beqL, Bool.and_eq_true] at h
      exact Json.eq_of_beq h.1 ▸ Json.eqL_of_beq h.2 ▸ rfl

theorem Json.eqM_of_beq :
    ∀ {xs ys : List (String × Json)}, Json.beqM xs ys = true → xs = ys
  | [], [], _ => rfl
  | (k1, v1) :: xs, (k2, v2) :: ys, h => by
      simp only [Json.beqM, Bool.and_eq_true, beq_iff_eq] at h
      exact h.1.1 ▸ Json.eq_of_beq h.1.2 ▸ Json.eqM_of_beq h.2 ▸ rfl

end

mutual

theorem Json.beq_refl : ∀ (a : Json), Json.beq a a = true
  | .null => rfl
  | .bool a => by simp [Json.beq]
  | .num a => by simp [Json.beq]
  | .str a => by simp [Json.beq]
  | .arr xs => by simpa [Json.beq] using Json.beqL_refl xs
  | .obj xs => by simpa [Json.beq] using Json.beqM_refl xs

theorem Json.beqL_refl : ∀ (xs : List Json), Json.beqL xs xs = true
  | [] => rfl
  | x :: xs => by simp [Json.beqL, Json.beq_refl x, Json.beqL_refl xs]

theorem Json.beqM_refl : ∀ (xs : List (String × Json)), Json.beqM xs xs = true
  | [] => rfl
  | (k, v) :: xs => by simp [Json.beqM, Json.beq_refl v, Json.beqM_refl xs]

end

instance : DecidableEq Json := fun a b =>
  if h : Json.beq a b then .isTrue (Json.eq_of_beq h)
  else .isFalse (fun he => h (he ▸ Json.beq_refl a))

/-- Python dict lookup (first binding wins; parsed dicts have unique keys). -/
def lookupKey : List (String × Json) → String → Option Json
  | [], _ => none
  | (k, v) :: rest, key => if k = key then some v else lookupKey rest key

/-- Attribute access `.get` on a value that must be a dict; anything else is the
AttributeError the source lets escape into the except handler. -/
def asObj : Json → Except String (List (String × Json))
  | .obj kvs => .ok kvs
  | _ => .error "AttributeError: object has no attribute get"

/-- Read key `k` as a number, defaulting to `d` when absent (dict.get). -/
def getNum (kvs : List (String × Json)) (k : String) (d : Rat) : Except String Rat :=
  match lookupKey kvs k with
  | none => .ok d
  | some (.num q) => .ok q
  | some _ => .error "TypeError: expected a number"

/-- Read key `k` as a string, defaulting to `d` when absent (dict.get). -/
def getStr (kvs : List (String × Json)) (k : String) (d : String) : Except String String :=
  match lookupKey kvs k with
  | none => .ok d
  | some (.str s) => .ok s
  | some _ => .error "TypeError: expected a string"

/-- Read key `k` as a boolean, defaulting to `d` when absent (dict.get). -/
def getBool (kvs : List (String × Json)) (k : String) (d : Bool) : Except String Bool :=
  match lookupKey kvs k with
  | none => .ok d
  | some (.bool b) => .ok b
  | some _ => .error "TypeError: expected a boolean"

/-- Read key `k` as a sequence, defaulting to the empty list when absent; a
present non-sequence is the TypeError raised by iterating it. -/
def getArr (kvs : List (String × Json)) (k : String) : Except String (List Json) :=
  match lookupKey kvs k with
  | none => .ok []
  | some (.arr elems) => .ok elems
  | some _ => .error "TypeError: object is not iterable"

/-- Decode every element of a parsed JSON sequence in order (the list
comprehensions in from_dict). -/
def decodeList {α : Type} (f : Json → Except String α) : List Json → Except String (List α)
  | [] => .ok []
  | j :: js => do
    let a ← f j
    let as ← decodeList f js
    .ok (a :: as)

/-- Point: a single outline vertex (class Point). -/
structure Point where
  x : Rat
  y : Rat
  type : String
  smooth : Bool
deriving DecidableEq, Repr

/-- Point.to_dict: emits x and y always, type only when it differs from the
default "line", smooth only when true. -/
def Point.to_dict (p : Point) : Json :=
  .obj ([("x", .num p.x), ("y", .num p.y)]
    ++ (if p.type ≠ "line" then [("type", .str p.type)] else [])
    ++ (if p.smooth then [("smooth", .bool p.smooth)] else []))

/-- Point.from_dict: reads x, y, type, smooth with defaults 0, 0, "line",
false. -/
def Point.from_dict (data : Json) : Except String Point := do
  let kvs ← asObj data
  let x ← getNum kvs "x" 0
  let y ← getNum kvs "y" 0
  let type ← getStr kvs "type" "line"
  let smooth ← getBool kvs "smooth" false
  .ok ⟨x, y, type, smooth⟩

/-- Contour: an ordered sequence of points plus a closed flag (class Contour). -/
structure Contour where
  points : List Point
  is_closed : Bool
deriving DecidableEq, Repr

/-- Contour.to_dict. -/
def Contour.to_dict (c : Contour) : Json :=
  .obj [("points", .arr (c.points.map Point.to_dict)), ("isClosed", .bool c.is_closed)]

/-- Contour.from_dict: points default to the empty sequence, isClosed to
false. -/
def Contour.from_dict (data : Json) : Except String Contour := do
  let kvs ← asObj data
  let pointsJson ← getArr kvs "points"
  let points ← decodeList Point.from_dict pointsJson
  let is_closed ← getBool kvs "isClosed" false
  .ok ⟨points, is_closed⟩

/-- Path: an ordered sequence of contours (class Path). -/
structure Path where
  contours : List Contour
deriving DecidableEq, Repr

/-- Path.to_dict. -/
def Path.to_dict (p : Path) : Json :=
  .obj [("contours", .arr (p.contours.map Contour.to_dict))]

/-- Path.from_dict: contours default to the empty sequence. -/
def Path.from_dict (data : Json) : Except String Path := do
  let kvs ← asObj data
  let contoursJson ← getArr kvs "contours"
  let contours ← decodeList Contour.from_dict contoursJson
  .ok ⟨contours⟩

/-- Path.is_empty: no contours, or every contour has no points. -/
def Path.is_empty (p : Path) : Bool :=
  p.contours.isEmpty || p.contours.all (fun c => c.points.isEmpty)

/-- Bounding box record returned by Path.get_bounds. -/
structure BoundingBox where
  xMin : Rat
  yMin : Rat
  xMax : Rat
  yMax : Rat
  width : Rat
  height : Rat
deriving DecidableEq, Repr

/-- One step of the min / max reduction in Path.get_bounds. The accumulator is
(min_x, max_x, min_y, max_y); `none` is the initial (inf, -inf, inf, -inf)
state before any point has been folded in. -/
def boundsStep (acc : Option (Rat × Rat × Rat × Rat)) (pt : Point) :
    Option (Rat × Rat × Rat × Rat) :=
  match acc with
  | none => some (pt.x, pt.x, pt.y, pt.y)
  | some (mnx, mxx, mny, mxy) =>
      some (min mnx pt.x, max mxx pt.x, min mny pt.y, max mxy pt.y)

/-- Path.get_bounds: none for an empty path, otherwise the min / max of x and y
over every point of every contour, with derived width and height. -/
def Path.get_bounds (p : Path) : Option BoundingBox :=
  if p.is_empty then none
  else
    match p.contours.foldl (fun acc c => c.points.foldl boundsStep acc) none with
    | none => none
    | some (min_x, max_x, min_y, max_y) =>
        some ⟨min_x, min_y, max_x, max_y, max_x - min_x, max_y - min_y⟩

/-- Path.translate: adds dx and dy to every coordinate, keeping type, smooth
and is_closed. -/
def Path.translate (p : Path) (dx dy : Rat) : Path :=
  ⟨p.contours.map (fun c =>
    ⟨c.points.map (fun pt => ⟨pt.x + dx, pt.y + dy, pt.type, pt.smooth⟩), c.is_closed⟩)⟩

/-- Path.scale: multiplies every x by sx and every y by sy, keeping type,
smooth and is_closed. -/
def Path.scale (p : Path) (sx sy : Rat) : Path :=
  ⟨p.contours.map (fun c =>
    ⟨c.points.map (fun pt => ⟨pt.x * sx, pt.y * sy, pt.type, pt.smooth⟩), c.is_closed⟩)⟩

/-- Result dicts of the processor entry points (the Python return value before
json.dumps). -/
abbrev Envelope : Type := List (String × Json)

/-- The uniform except-handler result: a dict with success false and the
stringified exception. -/
def errorEnvelope (e : String) : Envelope :=
  [("success", .bool false), ("error", .str e)]

/-- Bounds payload as it is placed in the envelope: the dict from get_bounds,
or JSON null. -/
def boundsJson : Option BoundingBox → Json
  | none => .null
  | some b => .obj [("xMin", .num b.xMin), ("yMin", .num b.yMin),
      ("xMax", .num b.xMax), ("yMax", .num b.yMax),
      ("width", .num b.width), ("height", .num b.height)]

/-- SimpleFontraWASMProcessor.path_bounds. -/
def path_bounds (path_data : Except String Json) : Envelope :=
  match path_data with
  | .error e => errorEnvelope e
  | .ok data =>
    match Path.from_dict data with
    | .error e => errorEnvelope e
    | .ok path => [("success", .bool true), ("bounds", boundsJson path.get_bounds)]

/-- SimpleFontraWASMProcessor.path_translate. -/
def path_translate (path_data : Except String Json) (dx dy : Rat) : Envelope :=
  match path_data with
  | .error e => errorEnvelope e
  | .ok data =>
    match Path.from_dict data with
    | .error e => errorEnvelope e
    | .ok path => [("success", .bool true), ("path", (path.translate dx dy).to_dict)]

/-- SimpleFontraWASMProcessor.path_scale. -/
def path_scale (path_data : Except String Json) (sx sy : Rat) : Envelope :=
  match path_data with
  | .error e => errorEnvelope e
  | .ok data =>
    match Path.from_dict data with
    | .error e => errorEnvelope e
    | .ok path => [("success", .bool true), ("path", (path.scale sx sy).to_dict)]

/-- Statistics dict built by path_validate (keys exactly as in the source). -/
def statsJson (path : Path) : Json :=
  .obj [("total_contours", .num path.contours.length),
        ("closed_contours", .num (path.contours.countP (fun c => c.is_closed))),
        ("open_contours", .num (path.contours.length - path.contours.countP (fun c => c.is_closed))),
        ("total_points", .num ((path.contours.map (fun c => c.points.length)).sum)),
        ("is_empty", .bool path.is_empty)]

/-- SimpleFontraWASMProcessor.path_validate. -/
def path_validate (path_data : Except String Json) : Envelope :=
  match path_data with
  | .error e => errorEnvelope e
  | .ok data =>
    match Path.from_dict data with
    | .error e => errorEnvelope e
    | .ok path =>
        [("success", .bool true), ("valid", .bool true), ("stats", statsJson path)]

/-- SimpleFontraWASMProcessor.path_info: composes path_validate (on the same
parsed input) and get_bounds; validation.get with default empty dict. -/
def path_info (path_data : Except String Json) : Envelope :=
  match path_data with
  | .error e => errorEnvelope e
  | .ok data =>
    match Path.from_dict data with
    | .error e => errorEnvelope e
    | .ok path =>
        let validation := path_validate (.ok data)
        let stats := (lookupKey validation "stats").getD (.obj [])
        [("success", .bool true),
         ("info", .obj [("bounds", boundsJson path.get_bounds),
                        ("stats", stats),
                        ("version", .str "1.0.0-simple")])]

/-! ### Concrete inputs used by witnesses and counterexamples -/

/-- The parsed JSON of the single-contour closed square outline used by the
tests in the spec. -/
def sqJson : Json :=
  .obj [("contours", .arr [
    .obj [("points", .arr [
        .obj [("x", .num 0), ("y", .num 0)],
        .obj [("x", .num 100), ("y", .num 0)],
        .obj [("x", .num 100), ("y", .num 100)],
        .obj [("x", .num 0), ("y", .num 100)]]),
      ("isClosed", .bool true)]])]

/-- The decoded form of sqJson. -/
def sqPath : Path :=
  ⟨[⟨[⟨0, 0, "line", false⟩, ⟨100, 0, "line", false⟩,
      ⟨100, 100, "line", false⟩, ⟨0, 100, "line", false⟩], true⟩]⟩

/-- Field access inside the stats record of an envelope. -/
def envStatsLookup (env : Envelope) (k : String) : Option Json :=
  match lookupKey env "stats" with
  | some (.obj kvs) => lookupKey kvs k
  | _ => none

/-- Key access on a JSON object value. -/
def Json.objLookup : Json → String → Option Json
  | .obj kvs, key => lookupKey kvs key
  | _, _ => none

/-! ### Claims -/

/-- C1 (counterexample): on the square outline, path_validate succeeds but its
stats record carries snake_case keys; none of the camelCase field names the
claim requires is present (totalContours is absent while total_contours holds
the value). -/
theorem path_validate_stats_snake_case_counterexample :
    lookupKey (path_validate (.ok sqJson)) "success" = some (.bool true) ∧
    envStatsLookup (path_validate (.ok sqJson)) "totalContours" = none ∧
    envStatsLookup (path_validate (.ok sqJson)) "closedContours" = none ∧
    envStatsLookup (path_validate (.ok sqJson)) "openContours" = none ∧
    envStatsLookup (path_validate (.ok sqJson)) "totalPoints" = none ∧
    envStatsLookup (path_validate (.ok sqJson)) "isEmpty" = none ∧
    envStatsLookup (path_validate (.ok sqJson)) "total_contours" = some (.num 1) := by
  decide

/-- C1 (amended): on the square outline, path_validate returns a success
envelope whose stats record is total_contours 1, closed_contours 1,
open_contours 0, total_points 4, is_empty false — the claimed values, under
the snake_case field names the source actually emits. -/
theorem path_validate_square_stats :
    path_validate (.ok sqJson) =
      [("success", .bool true), ("valid", .bool true),
       ("stats", .obj [("total_contours", .num 1), ("closed_contours", .num 1),
         ("open_contours", .num 0), ("total_points", .num 4), ("is_empty", .bool false)])] := by
  decide

/-- C4: translating twice equals translating once by the summed offsets, for
every outline and all offsets. -/
theorem translate_translate (p : Path) (dx1 dy1 dx2 dy2 : Rat) :
    (p.translate dx1 dy1).translate dx2 dy2 = p.translate (dx1 + dx2) (dy1 + dy2) := by
  simp [Path.translate, List.map_map, Function.comp, add_assoc]

/-- Skeleton of an outline: everything except the coordinates — the closed
flag of every contour and the (type, smooth) data of every point, in order. -/
def Path.structure_of (p : Path) : List (Bool × List (String × Bool)) :=
  p.contours.map (fun c => (c.is_closed, c.points.map (fun pt => (pt.type, pt.smooth))))

/-- C8: translate and scale preserve the outline skeleton — contour count,
per-contour point count, is_closed flags and per-point type and smooth — for
every outline and all parameters. -/
theorem transform_structure_preservation (p : Path) (dx dy sx sy : Rat) :
    (p.translate dx dy).structure_of = p.structure_of ∧
    (p.scale sx sy).structure_of = p.structure_of ∧
    (p.translate dx dy).contours.length = p.contours.length ∧
    (p.scale sx sy).contours.length = p.contours.length := by
  refine ⟨?_, ?_, ?_, ?_⟩ <;>
    simp [Path.structure_of, Path.translate, Path.scale, List.map_map, Function.comp]

/-- C6: a point's encoding carries x and y always, carries type exactly when
it differs from the default "line", and carries smooth exactly when it is
true; contour and path encodings embed the point encodings unchanged. -/
theorem encode_omits_default_type_smooth (p : Path) (c : Contour) (pt : Point) :
    Path.to_dict p = .obj [("contours", .arr (p.contours.map Contour.to_dict))] ∧
    Contour.to_dict c =
      .obj [("points", .arr (c.points.map Point.to_dict)), ("isClosed", .bool c.is_closed)] ∧
    pt.to_dict.objLookup "x" = some (.num pt.x) ∧
    pt.to_dict.objLookup "y" = some (.num pt.y) ∧
    pt.to_dict.objLookup "type" = (if pt.type = "line" then none else some (.str pt.type)) ∧
    pt.to_dict.objLookup "smooth" = (if pt.smooth then some (.bool true) else none) := by
  refine ⟨rfl, rfl, ?_, ?_, ?_, ?_⟩ <;>
    by_cases ht : pt.type = "line" <;> by_cases hs : pt.smooth <;>
      simp [Point.to_dict, Json.objLookup, lookupKey, ht, hs]

/-! ### Codec round trip (C5) -/

theorem bind_ok_eq {α β : Type} (a : α) (f : α → Except String β) :
    (Except.ok a >>= f) = f a := rfl

theorem bind_error_eq {α β : Type} (e : String) (f : α → Except String β) :
    ((Except.error e : Except String α) >>= f) = Except.error e := rfl

instance exceptDecEq {ε α : Type} [DecidableEq ε] [DecidableEq α] :
    DecidableEq (Except ε α) := fun x y =>
  match x, y with
  | .ok a, .ok b =>
      if h : a = b then .isTrue (congrArg Except.ok h)
      else .isFalse (fun he => h (Except.ok.inj he))
  | .error a, .error b =>
      if h : a = b then .isTrue (congrArg Except.error h)
      else .isFalse (fun he => h (Except.error.inj he))
  | .ok _, .error _ => .isFalse (fun he => Except.noConfusion he)
  | .error _, .ok _ => .isFalse (fun he => Except.noConfusion he)

theorem point_from_dict_to_dict (pt : Point) : Point.from_dict pt.to_dict = .ok pt := by
  obtain ⟨x, y, t, s⟩ := pt
  by_cases ht : t = "line" <;> by_cases hs : s = true <;>
    simp_all [Point.to_dict, Point.from_dict, asObj, getNum, getStr, getBool, lookupKey,
      bind_ok_eq]

theorem decodeList_map {α : Type} (f : Json → Except String α) (g : α → Json)
    (h : ∀ a, f (g a) = .ok a) (l : List α) :
    decodeList f (l.map g) = .ok l := by
  induction l with
  | nil => rfl
  | cons a l ih => simp [decodeList, h, ih, bind_ok_eq]

theorem contour_from_dict_to_dict (c : Contour) : Contour.from_dict c.to_dict = .ok c := by
  simp [Contour.to_dict, Contour.from_dict, asObj, getArr, getBool, lookupKey, bind_ok_eq,
    decodeList_map Point.from_dict Point.to_dict point_from_dict_to_dict]

theorem path_from_dict_to_dict (p : Path) : Path.from_dict p.to_dict = .ok p := by
  simp [Path.to_dict, Path.from_dict, asObj, getArr, lookupKey, bind_ok_eq,
    decodeList_map Contour.from_dict Contour.to_dict contour_from_dict_to_dict]

/-- C5: for an outline obtained from decode, encoding, decoding and encoding
again returns the first encoding: the codec is stable under repeated
application. -/
theorem encode_decode_encode_stable (j : Json) (o : Path) (_h : Path.from_dict j = .ok o) :
    (Path.from_dict o.to_dict).map Path.to_dict = .ok o.to_dict := by
  rw [path_from_dict_to_dict o]; rfl

/-- C5 (witness): the round-trip theorem applied to the square outline. -/
theorem encode_decode_encode_stable_witness :
    Path.from_dict sqJson = .ok sqPath ∧
    (Path.from_dict sqPath.to_dict).map Path.to_dict = .ok sqPath.to_dict :=
  ⟨by decide, encode_decode_encode_stable sqJson sqPath (by decide)⟩

/-! ### Bounds computation (C3, C9) -/

/-- Every point of every contour, in iteration order. -/
def Path.allPoints (p : Path) : List Point := (p.contours.map Contour.points).flatten

theorem foldl_min_le_init (l : List Rat) (q : Rat) : l.foldl min q ≤ q := by
  induction l generalizing q with
  | nil => exact le_refl q
  | cons x l ih => exact le_trans (ih (min q x)) (min_le_left q x)

theorem init_le_foldl_max (l : List Rat) (q : Rat) : q ≤ l.foldl max q := by
  induction l generalizing q with
  | nil => exact le_refl q
  | cons x l ih => exact le_trans (le_max_left q x) (ih (max q x))

theorem foldl_min_le_mem (l : List Rat) (q x : Rat) (hx : x ∈ l) : l.foldl min q ≤ x := by
  induction l generalizing q with
  | nil => cases hx
  | cons y l ih =>
      rcases List.mem_cons.mp hx with h | h
      · subst h; exact le_trans (foldl_min_le_init l (min q x)) (min_le_right q x)
      · exact ih (min q y) h

theorem mem_le_foldl_max (l : List Rat) (q x : Rat) (hx : x ∈ l) : x ≤ l.foldl max q := by
  induction l generalizing q with
  | nil => cases hx
  | cons y l ih =>
      rcases List.mem_cons.mp hx with h | h
      · subst h; exact le_trans (le_max_right q x) (init_le_foldl_max l (max q x))
      · exact ih (max q y) h

theorem foldl_min_attained (l : List Rat) (q : Rat) :
    l.foldl min q = q ∨ l.foldl min q ∈ l := by
  induction l generalizing q with
  | nil => exact Or.inl rfl
  | cons x l ih =>
      rcases ih (min q x) with h | h
      · rcases min_choice q x with hq | hx
        · exact Or.inl (by rw [List.foldl_cons, h, hq])
        · exact Or.inr (by rw [List.foldl_cons, h, hx]; exact List.mem_cons_self x l)
      · exact Or.inr (List.mem_cons_of_mem x h)

theorem foldl_max_attained (l : List Rat) (q : Rat) :
    l.foldl max q = q ∨ l.foldl max q ∈ l := by
  induction l generalizing q with
  | nil => exact Or.inl rfl
  | cons x l ih =>
      rcases ih (max q x) with h | h
      · rcases max_choice q x with hq | hx
        · exact Or.inl (by rw [List.foldl_cons, h, hq])
        · exact Or.inr (by rw [List.foldl_cons, h, hx]; exact List.mem_cons_self x l)
      · exact Or.inr (List.mem_cons_of_mem x h)

theorem foldl_boundsStep_some (pts : List Point) (a b c d : Rat) :
    pts.foldl boundsStep (some (a, b, c, d)) =
      some ((pts.map Point.x).foldl min a, (pts.map Point.x).foldl max b,
            (pts.map Point.y).foldl min c, (pts.map Point.y).foldl max d) := by
  induction pts generalizing a b c d with
  | nil => rfl
  | cons pt pts ih => simp [boundsStep, ih]

theorem contours_foldl_eq (cs : List Contour) (acc : Option (Rat × Rat × Rat × Rat)) :
    cs.foldl (fun acc c => c.points.foldl boundsStep acc) acc =
      ((cs.map Contour.points).flatten).foldl boundsStep acc := by
  induction cs generalizing acc with
  | nil => rfl
  | cons c cs ih => simp [ih, List.foldl_append]

theorem allPoints_nil_iff (p : Path) : p.allPoints = [] ↔ p.is_empty = true := by
  constructor
  · intro h
    simp only [Path.allPoints, List.flatten_eq_nil_iff] at h
    simp only [Path.is_empty, Bool.or_eq_true, List.all_eq_true, List.isEmpty_iff]
    exact Or.inr (fun c hc => h _ (List.mem_map_of_mem Contour.points hc))
  · intro h
    simp only [Path.is_empty, Bool.or_eq_true, List.all_eq_true, List.isEmpty_iff] at h
    rcases h with h | h
    · simp [Path.allPoints, h]
    · simp only [Path.allPoints, List.flatten_eq_nil_iff]
      intro l hl
      rcases List.mem_map.mp hl with ⟨c, hc, rfl⟩
      exact h c hc

theorem get_bounds_eq_allPoints (p : Path) :
    p.get_bounds =
      (if p.is_empty then none
       else match p.allPoints.foldl boundsStep none with
       | none => none
       | some (min_x, max_x, min_y, max_y) =>
           some ⟨min_x, min_y, max_x, max_y, max_x - min_x, max_y - min_y⟩) := by
  rw [Path.get_bounds, contours_foldl_eq]
  rfl

theorem get_bounds_none_iff (p : Path) : p.get_bounds = none ↔ p.is_empty = true := by
  rw [get_bounds_eq_allPoints]
  by_cases he : p.is_empty
  · simp [he]
  · rw [if_neg he]
    have hne : p.allPoints ≠ [] := fun h => he (allPoints_nil_iff p |>.mp h)
    rcases List.exists_cons_of_ne_nil hne with ⟨pt, rest, hcons⟩
    rw [hcons]
    simp only [List.foldl_cons, boundsStep, foldl_boundsStep_some]
    simp [he]

theorem get_bounds_some_spec (p : Path) (b : BoundingBox) (h : p.get_bounds = some b) :
    b.width = b.xMax - b.xMin ∧ b.height = b.yMax - b.yMin ∧
    (∀ pt ∈ p.allPoints, b.xMin ≤ pt.x ∧ pt.x ≤ b.xMax ∧ b.yMin ≤ pt.y ∧ pt.y ≤ b.yMax) ∧
    (∃ pt ∈ p.allPoints, pt.x = b.xMin) ∧ (∃ pt ∈ p.allPoints, pt.x = b.xMax) ∧
    (∃ pt ∈ p.allPoints, pt.y = b.yMin) ∧ (∃ pt ∈ p.allPoints, pt.y = b.yMax) := by
  rw [get_bounds_eq_allPoints] at h
  by_cases he : p.is_empty
  · simp [he] at h
  · have hne : p.allPoints ≠ [] := fun hnil => he (allPoints_nil_iff p |>.mp hnil)
    rcases List.exists_cons_of_ne_nil hne with ⟨pt0, rest, hcons⟩
    rw [if_neg he, hcons] at h
    simp only [List.foldl_cons, boundsStep, foldl_boundsStep_some] at h
    injection h with h
    subst h
    rw [hcons]
    refine ⟨rfl, rfl, ?_, ?_, ?_, ?_, ?_⟩
    · intro pt hpt
      rcases List.mem_cons.mp hpt with hp | hp
      · subst hp
        exact ⟨foldl_min_le_init _ _, init_le_foldl_max _ _,
          foldl_min_le_init _ _, init_le_foldl_max _ _⟩
      · exact ⟨foldl_min_le_mem _ _ _ (List.mem_map_of_mem Point.x hp),
          mem_le_foldl_max _ _ _ (List.mem_map_of_mem Point.x hp),
          foldl_min_le_mem _ _ _ (List.mem_map_of_mem Point.y hp),
          mem_le_foldl_max _ _ _ (List.mem_map_of_mem Point.y hp)⟩
    · rcases foldl_min_attained (rest.map Point.x) pt0.x with hq | hq
      · exact ⟨pt0, List.mem_cons_self pt0 rest, hq.symm⟩
      · rcases List.mem_map.mp hq with ⟨pt, hpt, hx⟩
        exact ⟨pt, List.mem_cons_of_mem pt0 hpt, hx⟩
    · rcases foldl_max_attained (rest.map Point.x) pt0.x with hq | hq
      · exact ⟨pt0, List.mem_cons_self pt0 rest, hq.symm⟩
      · rcases List.mem_map.mp hq with ⟨pt, hpt, hx⟩
        exact ⟨pt, List.mem_cons_of_mem pt0 hpt, hx⟩
    · rcases foldl_min_attained (rest.map Point.y) pt0.y with hq | hq
      · exact ⟨pt0, List.mem_cons_self pt0 rest, hq.symm⟩
      · rcases List.mem_map.mp hq with ⟨pt, hpt, hx⟩
        exact ⟨pt, List.mem_cons_of_mem pt0 hpt, hx⟩
    · rcases foldl_max_attained (rest.map Point.y) pt0.y with hq | hq
      · exact ⟨pt0, List.mem_cons_self pt0 rest, hq.symm⟩
      · rcases List.mem_map.mp hq with ⟨pt, hpt, hx⟩
        exact ⟨pt, List.mem_cons_of_mem pt0 hpt, hx⟩

/-- C3: get_bounds is none exactly on empty outlines; on a non-empty outline
it returns the minimum and maximum of x and y over all points with derived
width and height, and a single-point outline gives a zero-size box, not
none. -/
theorem get_bounds_spec (p : Path) :
    (p.get_bounds = none ↔ p.is_empty = true) ∧
    (∀ b, p.get_bounds = some b →
      b.width = b.xMax - b.xMin ∧ b.height = b.yMax - b.yMin ∧
      (∀ pt ∈ p.allPoints, b.xMin ≤ pt.x ∧ pt.x ≤ b.xMax ∧ b.yMin ≤ pt.y ∧ pt.y ≤ b.yMax) ∧
      (∃ pt ∈ p.allPoints, pt.x = b.xMin) ∧ (∃ pt ∈ p.allPoints, pt.x = b.xMax) ∧
      (∃ pt ∈ p.allPoints, pt.y = b.yMin) ∧ (∃ pt ∈ p.allPoints, pt.y = b.yMax)) ∧
    (∀ (x y : Rat) (t : String) (s cl : Bool),
      (Path.mk [Contour.mk [Point.mk x y t s] cl]).get_bounds = some ⟨x, y, x, y, 0, 0⟩) := by
  refine ⟨get_bounds_none_iff p, fun b h => get_bounds_some_spec p b h, ?_⟩
  intro x y t s cl
  simp [Path.get_bounds, Path.is_empty, boundsStep]

/-- C3 (witness): the bounds spec applied to the square outline, at its
computed bounding box. -/
theorem get_bounds_spec_witness :
    (100 : Rat) = 100 - 0 ∧ (100 : Rat) = 100 - 0 ∧
    (∀ pt ∈ sqPath.allPoints,
      (0 : Rat) ≤ pt.x ∧ pt.x ≤ (100 : Rat) ∧ (0 : Rat) ≤ pt.y ∧ pt.y ≤ (100 : Rat)) ∧
    (∃ pt ∈ sqPath.allPoints, pt.x = (0 : Rat)) ∧
    (∃ pt ∈ sqPath.allPoints, pt.x = (100 : Rat)) ∧
    (∃ pt ∈ sqPath.allPoints, pt.y = (0 : Rat)) ∧
    (∃ pt ∈ sqPath.allPoints, pt.y = (100 : Rat)) :=
  (get_bounds_spec sqPath).2.1 ⟨0, 0, 100, 100, 100, 100⟩ (by decide)

/-- C9: any bounding box returned by get_bounds has its minima below its
maxima and nonnegative width and height. -/
theorem get_bounds_ordered (p : Path) (b : BoundingBox) (h : p.get_bounds = some b) :
    b.xMin ≤ b.xMax ∧ b.yMin ≤ b.yMax ∧ 0 ≤ b.width ∧ 0 ≤ b.height := by
  obtain ⟨hw, hh, hmem, ⟨ptx, hptx, hx⟩, -, ⟨pty, hpty, hy⟩, -⟩ := get_bounds_some_spec p b h
  have hxx : b.xMin ≤ b.xMax := hx ▸ (hmem ptx hptx).2.1
  have hyy : b.yMin ≤ b.yMax := hy ▸ (hmem pty hpty).2.2.2
  exact ⟨hxx, hyy, hw ▸ sub_nonneg.mpr hxx, hh ▸ sub_nonneg.mpr hyy⟩

/-- C9 (witness): the ordering facts at the square outline's bounding box. -/
theorem get_bounds_ordered_witness :
    (0 : Rat) ≤ 100 ∧ (0 : Rat) ≤ 100 ∧ (0 : Rat) ≤ (100 : Rat) ∧ (0 : Rat) ≤ (100 : Rat) :=
  get_bounds_ordered sqPath ⟨0, 0, 100, 100, 100, 100⟩ (by decide)

/-! ### Error envelopes (C2) -/

theorem bind_eq_error {α β : Type} (x : Except String α) (f : α → Except String β) (e : String)
    (h : (x >>= f) = .error e) : x = .error e ∨ ∃ a, x = .ok a ∧ f a = .error e := by
  cases x with
  | error e2 =>
      left
      have hred : ((Except.error e2 : Except String α) >>= f) = (Except.error e2 : Except String β) := rfl
      rw [hred] at h
      injection h with h
      rw [h]
  | ok a => exact Or.inr ⟨a, rfl, h⟩

theorem asObj_error_ne (j : Json) (e : String) (h : asObj j = .error e) : e ≠ "" := by
  cases j <;> simp only [asObj] at h <;> cases h <;> decide

theorem getNum_error_ne (kvs : List (String × Json)) (k : String) (d : Rat) (e : String)
    (h : getNum kvs k d = .error e) : e ≠ "" := by
  unfold getNum at h
  cases hl : lookupKey kvs k with
  | none => rw [hl] at h; cases h
  | some v =>
      rw [hl] at h
      cases v <;> cases h <;> decide

theorem getStr_error_ne (kvs : List (String × Json)) (k : String) (d : String) (e : String)
    (h : getStr kvs k d = .error e) : e ≠ "" := by
  unfold getStr at h
  cases hl : lookupKey kvs k with
  | none => rw [hl] at h; cases h
  | some v =>
      rw [hl] at h
      cases v <;> cases h <;> decide

theorem getBool_error_ne (kvs : List (String × Json)) (k : String) (d : Bool) (e : String)
    (h : getBool kvs k d = .error e) : e ≠ "" := by
  unfold getBool at h
  cases hl : lookupKey kvs k with
  | none => rw [hl] at h; cases h
  | some v =>
      rw [hl] at h
      cases v <;> cases h <;> decide

theorem getArr_error_ne (kvs : List (String × Json)) (k : String) (e : String)
    (h : getArr kvs k = .error e) : e ≠ "" := by
  unfold getArr at h
  cases hl : lookupKey kvs k with
  | none => rw [hl] at h; cases h
  | some v =>
      rw [hl] at h
      cases v <;> cases h <;> decide

theorem decodeList_error_ne {α : Type} (f : Json → Except String α)
    (hf : ∀ j e, f j = .error e → e ≠ "") :
    ∀ (l : List Json) (e : String), decodeList f l = .error e → e ≠ "" := by
  intro l
  induction l with
  | nil => intro e h; cases h
  | cons j js ih =>
      intro e h
      unfold decodeList at h
      rcases bind_eq_error _ _ _ h with h1 | ⟨a, _, h⟩
      · exact hf j e h1
      · rcases bind_eq_error _ _ _ h with h2 | ⟨as, _, h⟩
        · exact ih e h2
        · cases h

theorem point_from_dict_error_ne (j : Json) (e : String)
    (h : Point.from_dict j = .error e) : e ≠ "" := by
  unfold Point.from_dict at h
  rcases bind_eq_error _ _ _ h with h1 | ⟨kvs, _, h⟩
  · exact asObj_error_ne j e h1
  rcases bind_eq_error _ _ _ h with h1 | ⟨x, _, h⟩
  · exact getNum_error_ne kvs "x" 0 e h1
  rcases bind_eq_error _ _ _ h with h1 | ⟨y, _, h⟩
  · exact getNum_error_ne kvs "y" 0 e h1
  rcases bind_eq_error _ _ _ h with h1 | ⟨t, _, h⟩
  · exact getStr_error_ne kvs "type" "line" e h1
  rcases bind_eq_error _ _ _ h with h1 | ⟨s, _, h⟩
  · exact getBool_error_ne kvs "smooth" false e h1
  cases h

theorem contour_from_dict_error_ne (j : Json) (e : String)
    (h : Contour.from_dict j = .error e) : e ≠ "" := by
  unfold Contour.from_dict at h
  rcases bind_eq_error _ _ _ h with h1 | ⟨kvs, _, h⟩
  · exact asObj_error_ne j e h1
  rcases bind_eq_error _ _ _ h with h1 | ⟨pjs, _, h⟩
  · exact getArr_error_ne kvs "points" e h1
  rcases bind_eq_error _ _ _ h with h1 | ⟨pts, _, h⟩
  · exact decodeList_error_ne Point.from_dict point_from_dict_error_ne pjs e h1
  rcases bind_eq_error _ _ _ h with h1 | ⟨cl, _, h⟩
  · exact getBool_error_ne kvs "isClosed" false e h1
  cases h

theorem path_from_dict_error_ne (j : Json) (e : String)
    (h : Path.from_dict j = .error e) : e ≠ "" := by
  unfold Path.from_dict at h
  rcases bind_eq_error _ _ _ h with h1 | ⟨kvs, _, h⟩
  · exact asObj_error_ne j e h1
  rcases bind_eq_error _ _ _ h with h1 | ⟨cjs, _, h⟩
  · exact getArr_error_ne kvs "contours" e h1
  rcases bind_eq_error _ _ _ h with h1 | ⟨cs, _, h⟩
  · exact decodeList_error_ne Contour.from_dict contour_from_dict_error_ne cjs e h1
  cases h

theorem errorEnvelope_lookups (e : String) :
    lookupKey (errorEnvelope e) "success" = some (.bool false) ∧
    lookupKey (errorEnvelope e) "error" = some (.str e) ∧
    lookupKey (errorEnvelope e) "path" = none ∧
    lookupKey (errorEnvelope e) "bounds" = none ∧
    lookupKey (errorEnvelope e) "stats" = none ∧
    lookupKey (errorEnvelope e) "info" = none := by
  refine ⟨rfl, ?_, rfl, rfl, rfl, rfl⟩
  simp [errorEnvelope, lookupKey]

/-- C2: every entry point always returns an envelope carrying a success
boolean; a parse failure with a non-empty message e yields exactly the
failure envelope success false, error e; and every failure envelope consists
of success false and a non-empty error alone, with no path, bounds, stats or
info field. -/
theorem entry_points_envelope_spec (r : Except String Json) (dx dy sx sy : Rat)
    (hparse : ∀ e, r = .error e → e ≠ "") :
    (∀ env ∈ [path_bounds r, path_translate r dx dy, path_scale r sx sy,
              path_validate r, path_info r],
      (∃ b, lookupKey env "success" = some (.bool b)) ∧
      (lookupKey env "success" = some (.bool false) →
        ∃ e, e ≠ "" ∧ env = errorEnvelope e ∧
          lookupKey env "path" = none ∧ lookupKey env "bounds" = none ∧
          lookupKey env "stats" = none ∧ lookupKey env "info" = none)) ∧
    (∀ e, r = .error e →
      path_bounds r = errorEnvelope e ∧ path_translate r dx dy = errorEnvelope e ∧
      path_scale r sx sy = errorEnvelope e ∧ path_validate r = errorEnvelope e ∧
      path_info r = errorEnvelope e) := by
  constructor
  · intro env henv
    have hcases :
        (∃ e, e ≠ "" ∧ env = errorEnvelope e) ∨
        lookupKey env "success" = some (.bool true) := by
      cases r with
      | error e =>
          have he : e ≠ "" := hparse e rfl
          simp only [path_bounds, path_translate, path_scale, path_validate, path_info,
            List.mem_cons, List.mem_singleton, List.not_mem_nil, or_false] at henv
          rcases henv with h | h | h | h | h <;> exact Or.inl ⟨e, he, h⟩
      | ok data =>
          cases hd : Path.from_dict data with
          | error e =>
              have he : e ≠ "" := path_from_dict_error_ne data e hd
              simp only [path_bounds, path_translate, path_scale, path_validate, path_info,
                hd, List.mem_cons, List.mem_singleton, List.not_mem_nil, or_false] at henv
              rcases henv with h | h | h | h | h <;> exact Or.inl ⟨e, he, h⟩
          | ok path =>
              simp only [path_bounds, path_translate, path_scale, path_validate, path_info,
                hd, List.mem_cons, List.mem_singleton, List.not_mem_nil, or_false] at henv
              rcases henv with h | h | h | h | h <;> subst h <;>
                exact Or.inr rfl
    rcases hcases with ⟨e, he, henvE⟩ | hsucc
    · subst henvE
      refine ⟨⟨false, rfl⟩, fun _ => ⟨e, he, rfl, ?_⟩⟩
      exact (errorEnvelope_lookups e).2.2
    · refine ⟨⟨true, hsucc⟩, fun hfalse => ?_⟩
      rw [hsucc] at hfalse
      cases hfalse
  · intro e hr
    subst hr
    exact ⟨rfl, rfl, rfl, rfl, rfl⟩

/-- C2 (witness): the envelope spec applied to a concrete malformed-input
parse failure. -/
theorem entry_points_envelope_spec_witness :
    (∀ env ∈ [path_bounds (.error "Expecting value: line 1 column 1 (char 0)"),
              path_translate (.error "Expecting value: line 1 column 1 (char 0)") 50 25,
              path_scale (.error "Expecting value: line 1 column 1 (char 0)") 2 (3/2),
              path_validate (.error "Expecting value: line 1 column 1 (char 0)"),
              path_info (.error "Expecting value: line 1 column 1 (char 0)")],
      (∃ b, lookupKey env "success" = some (.bool b)) ∧
      (lookupKey env "success" = some (.bool false) →
        ∃ e, e ≠ "" ∧ env = errorEnvelope e ∧
          lookupKey env "path" = none ∧ lookupKey env "bounds" = none ∧
          lookupKey env "stats" = none ∧ lookupKey env "info" = none)) ∧
    (∀ e, (.error "Expecting value: line 1 column 1 (char 0)" : Except String Json) = .error e →
      path_bounds (.error "Expecting value: line 1 column 1 (char 0)") = errorEnvelope e ∧
      path_translate (.error "Expecting value: line 1 column 1 (char 0)") 50 25 = errorEnvelope e ∧
      path_scale (.error "Expecting value: line 1 column 1 (char 0)") 2 (3/2) = errorEnvelope e ∧
      path_validate (.error "Expecting value: line 1 column 1 (char 0)") = errorEnvelope e ∧
      path_info (.error "Expecting value: line 1 column 1 (char 0)") = errorEnvelope e) :=
  entry_points_envelope_spec (.error "Expecting value: line 1 column 1 (char 0)") 50 25 2 (3/2)
    (fun e he => by cases he; decide)

/-! ### Decode defaults and failure conditions (C7) -/

/-- Whether a decode step succeeded. -/
def isOkE {α : Type} : Except String α → Bool
  | .ok _ => true
  | .error _ => false

theorem getArr_arr (kvs : List (String × Json)) (k : String) (l : List Json)
    (h : lookupKey kvs k = some (.arr l)) : getArr kvs k = .ok l := by
  unfold getArr; rw [h]

theorem decodeList_isOk {α : Type} (f : Json → Except String α) (l : List Json) :
    isOkE (decodeList f l) = l.all (fun j => isOkE (f j)) := by
  induction l with
  | nil => rfl
  | cons j js ih =>
      unfold decodeList
      cases hj : f j with
      | error e =>
          rw [bind_error_eq, List.all_cons, hj]
          simp [isOkE]
      | ok a =>
          rw [bind_ok_eq]
          cases hd : decodeList f js with
          | error e =>
              rw [bind_error_eq, List.all_cons, hj, ← ih, hd]
              simp [isOkE]
          | ok as =>
              rw [bind_ok_eq, List.all_cons, hj, ← ih, hd]
              simp [isOkE]

/-- A vertex exactly as the Python class stores it: from_dict keeps whatever
value dict.get returned, with no type check. -/
structure PyPoint where
  x : Json
  y : Json
  type : Json
  smooth : Json
deriving DecidableEq

/-- A contour exactly as the Python class stores it: decoded points plus the
raw isClosed value. -/
structure PyContour where
  points : List PyPoint
  is_closed : Json
deriving DecidableEq

/-- A path exactly as the Python class stores it. -/
structure PyPath where
  contours : List PyContour
deriving DecidableEq

/-- Iterating the value of dict.get(k, []) as Python does: absent gives the
empty sequence; a list yields its elements, a string its characters (as
one-character strings), a dict its keys; null, booleans and numbers raise
TypeError. -/
def getIter (kvs : List (String × Json)) (k : String) : Except String (List Json) :=
  match lookupKey kvs k with
  | none => .ok []
  | some (.arr elems) => .ok elems
  | some (.str s) => .ok (s.toList.map (fun c => .str (String.singleton c)))
  | some (.obj ms) => .ok (ms.map (fun kv => .str kv.1))
  | some _ => .error "TypeError: object is not iterable"

/-- Point.from_dict exactly as Python executes it: dict.get with defaults 0,
0, "line", False, the values stored untyped; only a non-mapping input
fails (AttributeError on .get). -/
def pyPoint_from_dict (data : Json) : Except String PyPoint := do
  let kvs ← asObj data
  .ok ⟨(lookupKey kvs "x").getD (.num 0), (lookupKey kvs "y").getD (.num 0),
       (lookupKey kvs "type").getD (.str "line"), (lookupKey kvs "smooth").getD (.bool false)⟩

/-- Contour.from_dict exactly as Python executes it: iterate the points value
(if present), decode each element as a point, store isClosed untyped. -/
def pyContour_from_dict (data : Json) : Except String PyContour := do
  let kvs ← asObj data
  let items ← getIter kvs "points"
  let points ← decodeList pyPoint_from_dict items
  .ok ⟨points, (lookupKey kvs "isClosed").getD (.bool false)⟩

/-- Path.from_dict exactly as Python executes it. -/
def pyPath_from_dict (data : Json) : Except String PyPath := do
  let kvs ← asObj data
  let items ← getIter kvs "contours"
  let contours ← decodeList pyContour_from_dict items
  .ok ⟨contours⟩

/-- The sequence Python would iterate for this optional field, or none when
iterating it raises TypeError. -/
def iterElems : Option Json → Option (List Json)
  | none => some []
  | some (.arr elems) => some elems
  | some (.str s) => some (s.toList.map (fun c => .str (String.singleton c)))
  | some (.obj ms) => some (ms.map (fun kv => .str kv.1))
  | some _ => none

/-- A point mapping decodes iff it is a mapping at all: every present field
value is accepted untyped. -/
def pyPointCompat : Json → Bool
  | .obj _ => true
  | _ => false

/-- A contour mapping decodes iff it is a mapping whose present points value
iterates without TypeError and every iterated element is itself a mapping. -/
def pyContourCompat : Json → Bool
  | .obj kvs =>
      match iterElems (lookupKey kvs "points") with
      | some l => l.all pyPointCompat
      | none => false
  | _ => false

/-- A path mapping decodes iff it is a mapping whose present contours value
iterates without TypeError and every iterated element decodes as a contour. -/
def pyPathCompat : Json → Bool
  | .obj kvs =>
      match iterElems (lookupKey kvs "contours") with
      | some l => l.all pyContourCompat
      | none => false
  | _ => false

theorem isOkE_bind_pure {α β : Type} (x : Except String α) (g : α → β) :
    isOkE (x >>= fun a => Except.ok (g a)) = isOkE x := by
  cases x <;> rfl

theorem pyPoint_isOk (j : Json) : isOkE (pyPoint_from_dict j) = pyPointCompat j := by
  cases j <;> rfl

theorem pyContour_isOk (j : Json) :
    isOkE (pyContour_from_dict j) = pyContourCompat j := by
  have hfun : (fun j => isOkE (pyPoint_from_dict j)) = pyPointCompat := funext pyPoint_isOk
  cases j with
  | obj kvs =>
      unfold pyContour_from_dict
      rw [show asObj (.obj kvs) = .ok kvs from rfl, bind_ok_eq,
        show pyContourCompat (.obj kvs) =
          (match iterElems (lookupKey kvs "points") with
           | some l => l.all pyPointCompat
           | none => false) from rfl]
      unfold getIter iterElems
      cases hl : lookupKey kvs "points" with
      | none =>
          simp only []
          rw [bind_ok_eq, isOkE_bind_pure]
          rfl
      | some v =>
          cases v with
          | arr l =>
              simp only []
              rw [bind_ok_eq, isOkE_bind_pure, decodeList_isOk, hfun]
          | str s =>
              simp only []
              rw [bind_ok_eq, isOkE_bind_pure, decodeList_isOk, hfun]
          | obj ms =>
              simp only []
              rw [bind_ok_eq, isOkE_bind_pure, decodeList_isOk, hfun]
          | null => rfl
          | bool b => rfl
          | num q => rfl
  | null => rfl
  | bool b => rfl
  | num q => rfl
  | str s => rfl
  | arr l => rfl

theorem pyPath_isOk (j : Json) : isOkE (pyPath_from_dict j) = pyPathCompat j := by
  have hfun : (fun j => isOkE (pyContour_from_dict j)) = pyContourCompat :=
    funext pyContour_isOk
  cases j with
  | obj kvs =>
      unfold pyPath_from_dict
      rw [show asObj (.obj kvs) = .ok kvs from rfl, bind_ok_eq,
        show pyPathCompat (.obj kvs) =
          (match iterElems (lookupKey kvs "contours") with
           | some l => l.all pyContourCompat
           | none => false) from rfl]
      unfold getIter iterElems
      cases hl : lookupKey kvs "contours" with
      | none =>
          simp only []
          rw [bind_ok_eq, isOkE_bind_pure]
          rfl
      | some v =>
          cases v with
          | arr l =>
              simp only []
              rw [bind_ok_eq, isOkE_bind_pure, decodeList_isOk, hfun]
          | str s =>
              simp only []
              rw [bind_ok_eq, isOkE_bind_pure, decodeList_isOk, hfun]
          | obj ms =>
              simp only []
              rw [bind_ok_eq, isOkE_bind_pure, decodeList_isOk, hfun]
          | null => rfl
          | bool b => rfl
          | num q => rfl
  | null => rfl
  | bool b => rfl
  | num q => rfl
  | str s => rfl
  | arr l => rfl

/-- C7: decode, modelled exactly as Python executes it (dict.get stores
present values untyped; sequence fields iterate like Python iterables),
fills the documented defaults for absent optional fields (empty contour
list, empty point list, False, 0, "line", False), never fails because an
optional field is missing — success is exactly shape compatibility of the
present fields — and fails only when a present field has an incompatible
shape: a non-iterable sequence value or a non-mapping iterated element. -/
theorem decode_defaults_and_failure_spec :
    (∀ j, isOkE (pyPath_from_dict j) = pyPathCompat j) ∧
    (∀ j, isOkE (pyContour_from_dict j) = pyContourCompat j) ∧
    (∀ j, isOkE (pyPoint_from_dict j) = pyPointCompat j) ∧
    pyPath_from_dict (.obj []) = .ok ⟨[]⟩ ∧
    pyContour_from_dict (.obj []) = .ok ⟨[], .bool false⟩ ∧
    pyPoint_from_dict (.obj []) = .ok ⟨.num 0, .num 0, .str "line", .bool false⟩ ∧
    (∀ kvs, lookupKey kvs "contours" = none → pyPath_from_dict (.obj kvs) = .ok ⟨[]⟩) ∧
    (∀ kvs c, pyContour_from_dict (.obj kvs) = .ok c →
      (lookupKey kvs "points" = none → c.points = []) ∧
      (lookupKey kvs "isClosed" = none → c.is_closed = .bool false)) ∧
    (∀ kvs pt, pyPoint_from_dict (.obj kvs) = .ok pt →
      (lookupKey kvs "x" = none → pt.x = .num 0) ∧
      (lookupKey kvs "y" = none → pt.y = .num 0) ∧
      (lookupKey kvs "type" = none → pt.type = .str "line") ∧
      (lookupKey kvs "smooth" = none → pt.smooth = .bool false)) := by
  refine ⟨pyPath_isOk, pyContour_isOk, pyPoint_isOk, rfl, rfl, rfl, ?_, ?_, ?_⟩
  · intro kvs h
    unfold pyPath_from_dict
    rw [show asObj (.obj kvs) = .ok kvs from rfl, bind_ok_eq]
    unfold getIter
    rw [h]
    rfl
  · intro kvs c h
    unfold pyContour_from_dict at h
    rw [show asObj (.obj kvs) = .ok kvs from rfl, bind_ok_eq] at h
    constructor
    · intro hp
      unfold getIter at h
      rw [hp] at h
      simp only [] at h
      rw [bind_ok_eq,
        show decodeList pyPoint_from_dict [] = .ok ([] : List PyPoint) from rfl,
        bind_ok_eq] at h
      injection h with h2
      subst h2
      rfl
    · intro hc
      cases hi : getIter kvs "points" with
      | error e => rw [hi, bind_error_eq] at h; cases h
      | ok items =>
          rw [hi, bind_ok_eq] at h
          cases hd : decodeList pyPoint_from_dict items with
          | error e => rw [hd, bind_error_eq] at h; cases h
          | ok pts =>
              rw [hd, bind_ok_eq] at h
              injection h with h2
              subst h2
              simp [hc]
  · intro kvs pt h
    unfold pyPoint_from_dict at h
    rw [show asObj (.obj kvs) = .ok kvs from rfl, bind_ok_eq] at h
    injection h with h2
    subst h2
    refine ⟨?_, ?_, ?_, ?_⟩ <;> intro hm <;> simp [hm]

/-- C7 (witness): the decode spec applied to concrete inputs — the square
outline; an object with only an unrelated key (contours default); a point
mapping whose x is the string "abc" (stored untyped: decode succeeds); a
contour mapping whose points value is the empty string (iterates to no
points: decode succeeds); and a point mapping with only smooth present (x
default). -/
theorem decode_defaults_and_failure_spec_witness :
    isOkE (pyPath_from_dict sqJson) = pyPathCompat sqJson ∧
    pyPath_from_dict (.obj [("foo", .null)]) = .ok ⟨[]⟩ ∧
    isOkE (pyPoint_from_dict (.obj [("x", .str "abc")])) =
      pyPointCompat (.obj [("x", .str "abc")]) ∧
    isOkE (pyContour_from_dict (.obj [("points", .str "")])) =
      pyContourCompat (.obj [("points", .str "")]) ∧
    pyPoint_from_dict (.obj [("x", .str "abc")]) =
      .ok ⟨.str "abc", .num 0, .str "line", .bool false⟩ ∧
    pyContour_from_dict (.obj [("points", .str "")]) = .ok ⟨[], .bool false⟩ ∧
    (PyPoint.mk (.num 0) (.num 0) (.str "line") (.bool true)).x = .num 0 :=
  ⟨decode_defaults_and_failure_spec.1 sqJson,
   decode_defaults_and_failure_spec.2.2.2.2.2.2.1 [("foo", .null)] (by decide),
   decode_defaults_and_failure_spec.2.2.1 (.obj [("x", .str "abc")]),
   decode_defaults_and_failure_spec.2.1 (.obj [("points", .str "")]),
   by decide,
   by decide,
   (decode_defaults_and_failure_spec.2.2.2.2.2.2.2.2 [("smooth", .bool true)]
     ⟨.num 0, .num 0, .str "line", .bool true⟩ (by decide)).1 (by decide)⟩

/-! ### Decode reads only the schema keys (C10) -/

/-- Two JSON values decode-agree as points: identical, or both objects whose
x, y, type, smooth lookups coincide (all other keys free to differ). -/
def pointAgree (a b : Json) : Prop :=
  a = b ∨ ∃ k1 k2, a = .obj k1 ∧ b = .obj k2 ∧
    lookupKey k1 "x" = lookupKey k2 "x" ∧ lookupKey k1 "y" = lookupKey k2 "y" ∧
    lookupKey k1 "type" = lookupKey k2 "type" ∧ lookupKey k1 "smooth" = lookupKey k2 "smooth"

/-- Lifted agreement on an optional sequence value: identical, or both
sequences of pointwise agreeing elements. -/
def seqAgree (R : Json → Json → Prop) (a b : Option Json) : Prop :=
  a = b ∨ ∃ l1 l2, a = some (.arr l1) ∧ b = some (.arr l2) ∧ List.Forall₂ R l1 l2

/-- Two JSON values decode-agree as contours: identical, or both objects with
agreeing points values and identical isClosed lookups. -/
def contourAgree (a b : Json) : Prop :=
  a = b ∨ ∃ k1 k2, a = .obj k1 ∧ b = .obj k2 ∧
    seqAgree pointAgree (lookupKey k1 "points") (lookupKey k2 "points") ∧
    lookupKey k1 "isClosed" = lookupKey k2 "isClosed"

/-- Two JSON values decode-agree as paths: identical, or both objects with
agreeing contours values. -/
def pathAgree (a b : Json) : Prop :=
  a = b ∨ ∃ k1 k2, a = .obj k1 ∧ b = .obj k2 ∧
    seqAgree contourAgree (lookupKey k1 "contours") (lookupKey k2 "contours")

theorem point_from_dict_agree (a b : Json) (h : pointAgree a b) :
    Point.from_dict a = Point.from_dict b := by
  rcases h with rfl | ⟨k1, k2, rfl, rfl, hx, hy, ht, hs⟩
  · rfl
  · unfold Point.from_dict
    rw [show asObj (.obj k1) = .ok k1 from rfl, show asObj (.obj k2) = .ok k2 from rfl,
      bind_ok_eq, bind_ok_eq]
    unfold getNum getStr getBool
    simp only [hx, hy, ht, hs]

theorem decodeList_forall2 {α : Type} {R : Json → Json → Prop} (f : Json → Except String α)
    (hf : ∀ a b, R a b → f a = f b) :
    ∀ l1 l2, List.Forall₂ R l1 l2 → decodeList f l1 = decodeList f l2 := by
  intro l1 l2 hfor
  induction hfor with
  | nil => rfl
  | cons hab htail ih => unfold decodeList; rw [hf _ _ hab, ih]

theorem contour_from_dict_agree (a b : Json) (h : contourAgree a b) :
    Contour.from_dict a = Contour.from_dict b := by
  rcases h with rfl | ⟨k1, k2, rfl, rfl, hpts, hcl⟩
  · rfl
  · unfold Contour.from_dict
    rw [show asObj (.obj k1) = .ok k1 from rfl, show asObj (.obj k2) = .ok k2 from rfl,
      bind_ok_eq, bind_ok_eq]
    rcases hpts with heq | ⟨l1, l2, h1, h2, hfor⟩
    · unfold getArr getBool
      simp only [heq, hcl]
    · rw [getArr_arr k1 "points" l1 h1, getArr_arr k2 "points" l2 h2, bind_ok_eq, bind_ok_eq,
        decodeList_forall2 Point.from_dict point_from_dict_agree l1 l2 hfor]
      unfold getBool
      simp only [hcl]

theorem path_from_dict_agree (a b : Json) (h : pathAgree a b) :
    Path.from_dict a = Path.from_dict b := by
  rcases h with rfl | ⟨k1, k2, rfl, rfl, hcs⟩
  · rfl
  · unfold Path.from_dict
    rw [show asObj (.obj k1) = .ok k1 from rfl, show asObj (.obj k2) = .ok k2 from rfl,
      bind_ok_eq, bind_ok_eq]
    rcases hcs with heq | ⟨l1, l2, h1, h2, hfor⟩
    · unfold getArr
      simp only [heq]
    · rw [getArr_arr k1 "contours" l1 h1, getArr_arr k2 "contours" l2 h2, bind_ok_eq,
        bind_ok_eq,
        decodeList_forall2 Contour.from_dict contour_from_dict_agree l1 l2 hfor]

/-- C10: decode depends only on the schema keys — two parsed inputs that
agree on contours, points, isClosed, x, y, type and smooth at every level
decode to identical outlines, and every entry point returns identical
results on them; unrecognized keys are silently ignored. -/
theorem decode_schema_keys_only (a b : Json) (h : pathAgree a b) :
    Path.from_dict a = Path.from_dict b ∧
    path_bounds (.ok a) = path_bounds (.ok b) ∧
    path_validate (.ok a) = path_validate (.ok b) ∧
    path_info (.ok a) = path_info (.ok b) ∧
    (∀ dx dy, path_translate (.ok a) dx dy = path_translate (.ok b) dx dy) ∧
    (∀ sx sy, path_scale (.ok a) sx sy = path_scale (.ok b) sx sy) := by
  have hfd := path_from_dict_agree a b h
  have hval : path_validate (.ok a) = path_validate (.ok b) := by
    unfold path_validate
    simp only []
    rw [hfd]
  refine ⟨hfd, ?_, hval, ?_, ?_, ?_⟩
  · unfold path_bounds
    simp only []
    rw [hfd]
  · unfold path_info
    simp only []
    rw [hfd]
    unfold path_validate
    simp only []
    rw [hfd]
  · intro dx dy
    unfold path_translate
    simp only []
    rw [hfd]
  · intro sx sy
    unfold path_scale
    simp only []
    rw [hfd]

/-- A point mapping with an extra junk key. -/
def pAJson : Json := .obj [("x", .num 1), ("y", .num 2), ("junk", .null)]

/-- The same point mapping without the junk key and with the keys reordered. -/
def pBJson : Json := .obj [("y", .num 2), ("x", .num 1)]

/-- A contour mapping with an extra key around the schema keys. -/
def cAJson : Json := .obj [("points", .arr [pAJson]), ("isClosed", .bool true), ("zz", .num 9)]

/-- The same contour mapping restricted to the schema keys. -/
def cBJson : Json := .obj [("points", .arr [pBJson]), ("isClosed", .bool true)]

/-- A path mapping with an unrecognized top-level key. -/
def aExJson : Json := .obj [("contours", .arr [cAJson]), ("meta", .str "x")]

/-- The same path mapping without the unrecognized key. -/
def bExJson : Json := .obj [("contours", .arr [cBJson])]

theorem aEx_agree : pathAgree aExJson bExJson := by
  refine Or.inr ⟨[("contours", .arr [cAJson]), ("meta", .str "x")],
    [("contours", .arr [cBJson])], rfl, rfl, ?_⟩
  refine Or.inr ⟨[cAJson], [cBJson], rfl, rfl, ?_⟩
  refine List.Forall₂.cons ?_ List.Forall₂.nil
  refine Or.inr ⟨[("points", .arr [pAJson]), ("isClosed", .bool true), ("zz", .num 9)],
    [("points", .arr [pBJson]), ("isClosed", .bool true)], rfl, rfl, ?_, by decide⟩
  refine Or.inr ⟨[pAJson], [pBJson], by decide, by decide, ?_⟩
  refine List.Forall₂.cons ?_ List.Forall₂.nil
  exact Or.inr ⟨[("x", .num 1), ("y", .num 2), ("junk", .null)],
    [("y", .num 2), ("x", .num 1)], rfl, rfl, by decide, by decide, by decide, by decide⟩

/-- C10 (witness): the schema-keys theorem applied to two concrete inputs
that differ only in unrecognized keys and key order. -/
theorem decode_schema_keys_only_witness :
    Path.from_dict aExJson = Path.from_dict bExJson ∧
    path_validate (.ok aExJson) = path_validate (.ok bExJson) ∧
    path_bounds (.ok aExJson) = path_bounds (.ok bExJson) :=
  ⟨(decode_schema_keys_only aExJson bExJson aEx_agree).1,
   (decode_schema_keys_only aExJson bExJson aEx_agree).2.2.1,
   (decode_schema_keys_only aExJson bExJson aEx_agree).2.1⟩

end FontraSimple
